import Mathlib

/-!
Verification development for the ai-codereview backend.

Shallow embedding of the GitHub client (`app/services/github_integration.py`),
the analysis engine (`app/services/code_analyzer.py`) and the webhook
dispatcher (`app/services/webhook_handler.py`).  External effects (HTTP
responses, the ML inference provider, HMAC-SHA256) are modelled as explicit
parameters or outcome values; the Python control flow around them is
translated directly.
-/

namespace AICodeReview

/-! ## GitHub client: `GitHubIntegration` -/

/-- Outcome of one HTTP call as observed by the Python code: either a response
with a status code and an already-parsed JSON body, or a raised transport
exception (timeout, connection error, malformed JSON, ...). -/
inductive HttpResult (α : Type) where
  | ok (status : Nat) (body : α)
  | exn
deriving DecidableEq

/-- One entry of the GitHub "files changed in this PR" listing; the dispatcher
only ever reads the "filename" key. -/
structure FileInfo where
  filename : String
deriving DecidableEq

/-- Body of a 200 response of the contents endpoint, as read by
`get_file_content`: the "encoding" and "content" JSON fields. -/
structure ContentsBody where
  encoding : String
  content : String
deriving DecidableEq

/-- `GitHubIntegration.fetch_pull_request_files`: returns the parsed body on
status 200, the empty list on any other status, and the empty list when the
request raised (the `except` branch). -/
def fetch_pull_request_files (resp : HttpResult (List FileInfo)) : List FileInfo :=
  match resp with
  | .ok status body => if status = 200 then body else []
  | .exn => []

/-- `GitHubIntegration.get_file_content`: on status 200 with encoding
"base64" it base64-decodes the content (decode or UTF-8 failure raises and is
caught, giving `none`); any other encoding gives `none`; any other status
gives `none`; a raised exception gives `none`.  `decodeB64` stands for
`base64.b64decode(...).decode('utf-8')`. -/
def get_file_content (decodeB64 : String → Option String)
    (resp : HttpResult ContentsBody) : Option String :=
  match resp with
  | .ok status body =>
      if status = 200 then
        if body.encoding = "base64" then decodeB64 body.content
        else none
      else none
  | .exn => none

/-- The 7-character header prefix GitHub puts before the hex digest. -/
def sha256Header : List Char := "sha256=".data

/-- `GitHubIntegration.validate_webhook_signature`, with text modelled as
character lists and `hmacHex secret payload` standing for
`hmac.new(secret.encode(), payload, hashlib.sha256).hexdigest()`:
an empty secret short-circuits to `true`; otherwise the "sha256=" prefix is
stripped from the signature when present and the remainder is compared with
the expected digest. -/
def validate_webhook_signature (hmacHex : List Char → List Nat → List Char)
    (payload : List Nat) (signature : List Char) (secret : List Char) : Bool :=
  if secret = [] then
    true
  else
    let expected := hmacHex secret payload
    let sig := if signature.take 7 = sha256Header then signature.drop 7 else signature
    expected = sig

/-- A single-position mutation: both lists have the same length, position `i`
differs, every other position agrees. -/
def mutatedAt {α : Type} (i : Nat) (xs ys : List α) : Prop :=
  xs.length = ys.length ∧ i < xs.length ∧ xs[i]? ≠ ys[i]? ∧
    ∀ j, j < xs.length → j ≠ i → xs[j]? = ys[j]?

instance {α : Type} [DecidableEq α] (i : Nat) (xs ys : List α) :
    Decidable (mutatedAt i xs ys) := by
  unfold mutatedAt; infer_instance

/-! ## Analysis engine: `CodeAnalyzer` -/

/-- The Python `str.split(sep)` on a single-character separator, over the
character list of the string: always returns at least one (possibly empty)
group. -/
def splitChars (sep : Char) : List Char → List (List Char)
  | [] => [[]]
  | c :: rest =>
      match splitChars sep rest with
      | [] => [[c]]
      | g :: gs => if c = sep then [] :: g :: gs else (c :: g) :: gs

/-- Substring containment, the Python `needle in hay` test on strings, over
character lists. -/
def containsChars (hay needle : List Char) : Bool :=
  (List.range (hay.length + 1)).any (fun i => needle.isPrefixOf (hay.drop i))

/-- One element of `CodeAnalysisResult.security_issues` (a `'type'`,
`'severity'`, `'confidence'`, `'description'` dict). -/
structure SecurityIssue where
  issueType : String
  severity : String
  confidence : ℚ
  description : String
deriving DecidableEq

/-- The fixed `security_patterns` list of `_analyze_security`. -/
def security_patterns : List String :=
  ["SQL injection vulnerabilities",
   "Cross-site scripting (XSS) risks",
   "Authentication bypasses",
   "Data exposure risks"]

/-- The per-pattern body of the `_analyze_security` loop.  `res` is what the
security classifier produced for the pattern's prompt: `some (label, score)`
for `result[0]`, or `none` when the call raised (the caught `except` branch).
A finding is appended exactly when the label is POSITIVE and the score
exceeds 0.7; severity is HIGH above 0.9, else MEDIUM. -/
def classifyFinding (res : Option (String × ℚ)) (pattern : String) : Option SecurityIssue :=
  match res with
  | none => none
  | some (label, score) =>
      if label = "POSITIVE" ∧ score > 7/10 then
        some { issueType := pattern,
               severity := if score > 9/10 then "HIGH" else "MEDIUM",
               confidence := score,
               description := "Potential " ++ pattern ++ " detected" }
      else none

/-- `CodeAnalyzer._analyze_security`: iterate the fixed pattern list,
collecting the findings the classifier produced. -/
def analyze_security (classify : String → Option (String × ℚ)) : List SecurityIssue :=
  security_patterns.filterMap (fun p => classifyFinding (classify p) p)

/-- `CodeAnalyzer._analyze_quality`.  `classifyScore` is the inference
provider's confidence for the quality prompt (`quality_result[0]['score']`),
or `none` when the call raised, in which case the caught exception yields the
neutral default 50.  Otherwise: scale to 0..100, add 5 for a line containing
"def ", 5 for a line containing "#", 5 when under 100 lines, cap at 100. -/
def analyze_quality (classifyScore : Option ℚ) (code_content : String) : ℚ :=
  match classifyScore with
  | none => 50
  | some s =>
      let base0 := s * 100
      let lines := splitChars (Char.ofNat 10) code_content.data
      let base1 := if lines.any (fun l => containsChars l "def ".data) then base0 + 5 else base0
      let base2 := if lines.any (fun l => l.contains '#') then base1 + 5 else base1
      let base3 := if lines.length < 100 then base2 + 5 else base2
      if base3 ≤ 100 then base3 else 100

/-- `CodeAnalyzer._calculate_overall_rating`: start from the quality score,
subtract 20 per HIGH-severity finding, subtract 15 / 5 for HIGH / MEDIUM
complexity, then bucket into a letter grade. -/
def calculate_overall_rating (security_issues : List SecurityIssue)
    (quality_score : ℚ) (complexity_rating : String) : String :=
  let high_severity_issues := (security_issues.filter (fun i => i.severity = "HIGH")).length
  let total_score := quality_score - high_severity_issues * 20
  let total_score :=
    if complexity_rating = "HIGH" then total_score - 15
    else if complexity_rating = "MEDIUM" then total_score - 5
    else total_score
  if total_score ≥ 90 then "A - Excellent"
  else if total_score ≥ 80 then "B - Good"
  else if total_score ≥ 70 then "C - Average"
  else if total_score ≥ 60 then "D - Needs Improvement"
  else "F - Major Issues Found"

/-- The letter-grade bucketing exactly as the spec sentence words it:
at least 90 gives A, at least 80 gives B, at least 70 gives C, at least 60
gives D, anything lower gives F. -/
def letterGradeSpec (total : ℚ) : String :=
  if total ≥ 90 then "A - Excellent"
  else if total ≥ 80 then "B - Good"
  else if total ≥ 70 then "C - Average"
  else if total ≥ 60 then "D - Needs Improvement"
  else "F - Major Issues Found"

/-- The adjusted score exactly as the spec sentence words it: quality score,
minus 20 points per HIGH-severity security finding, minus 15 when complexity
is HIGH and 5 when it is MEDIUM. -/
def adjustedScoreSpec (security_issues : List SecurityIssue)
    (quality_score : ℚ) (complexity_rating : String) : ℚ :=
  quality_score
    - 20 * (security_issues.filter (fun i => i.severity = "HIGH")).length
    - (if complexity_rating = "HIGH" then 15
       else if complexity_rating = "MEDIUM" then 5 else 0)

/-! ## Webhook dispatcher: `WebhookProcessor` -/

/-- The `PullRequestAction` enum values (`[action.value for action in
PullRequestAction]`). -/
def supported_pr_actions : List String :=
  ["opened", "synchronize", "ready_for_review", "reopened"]

/-- The `analyzable_extensions` set of `_should_analyze_file`. -/
def analyzable_extensions : List String :=
  ["py", "js", "ts", "java", "cpp", "cc", "cxx", "c", "h",
   "go", "rs", "php", "rb", "swift", "kt", "scala", "cs"]

/-- `WebhookProcessor._should_analyze_file`: empty path is rejected; the part
after the last dot, lowercased (empty when there is no dot), must be in the
supported-extension set. -/
def should_analyze_file (file_path : String) : Bool :=
  if file_path = "" then false
  else
    let cs := file_path.data
    let extension :=
      if cs.contains '.' then ((splitChars '.' cs).getLastD []).map Char.toLower
      else []
    (analyzable_extensions.map String.data).contains extension

/-- The two fields of a `CodeAnalysisResult` that the dispatcher's comment
logic reads: the findings list and the quality score. -/
structure FileAnalysis where
  security_issues : List SecurityIssue
  quality_score : ℚ
deriving DecidableEq

/-- The comments the dispatcher can post, identified symbolically.  The
summary comment carries the two numbers printed into its body:
"Files Analyzed" (`len(analysis_results)`) and "Total Issues Found". -/
inductive Comment where
  | noFiles
  | started
  | fileDetail (path : String)
  | summary (filesAnalyzed : Nat) (totalIssues : Nat)
  | failed
deriving DecidableEq

/-- The network calls the PR-event path can make, in order of emission. -/
inductive NetCall where
  | getPRInfo
  | fetchFiles
  | getContent (path : String)
  | runAnalysis (path : String)
  | postComment (c : Comment)
deriving DecidableEq

/-- Accumulator of the background loop of `_analyze_pull_request_files`:
the calls made so far, the `analysis_results` list (file name and analysis),
and the running `total_issues`. -/
structure LoopState where
  trace : List NetCall
  results : List (String × FileAnalysis)
  total_issues : Nat
deriving DecidableEq

/-- One iteration of the `for file_info in changed_files` loop.
Unsupported extensions are skipped before any call; otherwise the content is
fetched (`fetch` returns `none` when `get_file_content` returned None, and
Python also skips an empty string, which is falsy); on success the analysis
engine runs, the result is accumulated, and a detailed comment is posted
exactly when the file has at least one finding or quality score below 70. -/
def analyzeFileStep (fetch : String → Option String)
    (analyze : String → String → FileAnalysis)
    (st : LoopState) (file : FileInfo) : LoopState :=
  if should_analyze_file file.filename then
    let trace0 := st.trace ++ [NetCall.getContent file.filename]
    match fetch file.filename with
    | none => { st with trace := trace0 }
    | some content =>
        if content = "" then { st with trace := trace0 }
        else
          let r := analyze content file.filename
          let file_issues := r.security_issues.length
          let trace1 := trace0 ++ [NetCall.runAnalysis file.filename]
          let trace2 :=
            if file_issues > 0 ∨ r.quality_score < 70 then
              trace1 ++ [NetCall.postComment (Comment.fileDetail file.filename)]
            else trace1
          { trace := trace2,
            results := st.results ++ [(file.filename, r)],
            total_issues := st.total_issues + file_issues }
  else st

/-- `WebhookProcessor._analyze_pull_request_files` (the success path: no
exception is raised inside the loop, matching the claims' setting): post the
"analysis started" comment, run the per-file loop, then post the summary
comment exactly when `analysis_results` is non-empty (Python truthiness of
the list). -/
def analyze_pull_request_files (fetch : String → Option String)
    (analyze : String → String → FileAnalysis)
    (changed_files : List FileInfo) : List NetCall :=
  let st0 : LoopState :=
    { trace := [NetCall.postComment Comment.started], results := [], total_issues := 0 }
  let st := changed_files.foldl (analyzeFileStep fetch analyze) st0
  if st.results = [] then st.trace
  else st.trace ++ [NetCall.postComment (Comment.summary st.results.length st.total_issues)]

/-- `WebhookProcessor.process_pull_request_event`, returning the boolean
result together with the full trace of network calls (those made before the
webhook response plus those of the spawned background task).  `fetchInfo`
is the outcome of `get_pull_request_info` (`none` = falsy), `files` the
outcome of `fetch_pull_request_files`.  A missing or zero PR number (both
falsy in Python) fails early; an unsupported action is acknowledged with no
calls; an empty file list posts the single "no analyzable files" comment and
succeeds; otherwise the background loop runs. -/
def process_pull_request_event (fetchInfo : Option Unit) (files : List FileInfo)
    (fetch : String → Option String) (analyze : String → String → FileAnalysis)
    (pr_number : Option Nat) (pr_action : String) : Bool × List NetCall :=
  match pr_number with
  | none => (false, [])
  | some n =>
      if n = 0 then (false, [])
      else if ¬ (pr_action ∈ supported_pr_actions) then (true, [])
      else
        match fetchInfo with
        | none => (false, [NetCall.getPRInfo])
        | some _ =>
            if files = [] then
              (true, [NetCall.getPRInfo, NetCall.fetchFiles,
                      NetCall.postComment Comment.noFiles])
            else
              (true, [NetCall.getPRInfo, NetCall.fetchFiles] ++
                      analyze_pull_request_files fetch analyze files)

/-- The configured cap `Settings.max_files_per_pr` (default 50); declared in
`app/utils/config.py` but never read by the dispatcher. -/
def max_files_per_pr : Nat := 50

/-- A changed file that the loop actually analyzes: supported extension and
a successful, non-empty content fetch. -/
def fileAnalyzed (fetch : String → Option String) (f : FileInfo) : Bool :=
  should_analyze_file f.filename &&
    match fetch f.filename with
    | none => false
    | some c => !(c = "")

/-- An analyzed file for which the loop posts a detailed comment: at least
one security finding or quality score below 70. -/
def flaggedFile (fetch : String → Option String)
    (analyze : String → String → FileAnalysis) (f : FileInfo) : Bool :=
  fileAnalyzed fetch f &&
    match fetch f.filename with
    | none => false
    | some c =>
        let r := analyze c f.filename
        decide (r.security_issues.length > 0 ∨ r.quality_score < 70)

/-- Recognizer for detailed per-file comments in a trace. -/
def isDetailComment : NetCall → Bool
  | .postComment (.fileDetail _) => true
  | _ => false

/-- Recognizer for summary comments in a trace. -/
def isSummaryComment : NetCall → Bool
  | .postComment (.summary _ _) => true
  | _ => false

/-- Recognizer for content-fetch calls in a trace. -/
def isContentCall : NetCall → Bool
  | .getContent _ => true
  | _ => false

/-- Recognizer for analysis-engine invocations in a trace. -/
def isAnalysisCall : NetCall → Bool
  | .runAnalysis _ => true
  | _ => false

/-! ## Loop accounting lemmas -/

/-- Effect of one iteration of the per-file loop on the accounting:
results grow by one exactly for an analyzed file, detailed comments by one
exactly for a flagged file, content fetches by one exactly for a supported
file, analysis runs by one exactly for an analyzed file, and no summary
comment is ever emitted inside the loop. -/
lemma analyzeFileStep_counts (fetch : String → Option String)
    (analyze : String → String → FileAnalysis) (st : LoopState) (f : FileInfo) :
    (analyzeFileStep fetch analyze st f).results.length
        = st.results.length + (if fileAnalyzed fetch f then 1 else 0) ∧
    (analyzeFileStep fetch analyze st f).trace.countP isDetailComment
        = st.trace.countP isDetailComment
          + (if flaggedFile fetch analyze f then 1 else 0) ∧
    (analyzeFileStep fetch analyze st f).trace.countP isSummaryComment
        = st.trace.countP isSummaryComment ∧
    (analyzeFileStep fetch analyze st f).trace.countP isContentCall
        = st.trace.countP isContentCall
          + (if should_analyze_file f.filename then 1 else 0) ∧
    (analyzeFileStep fetch analyze st f).trace.countP isAnalysisCall
        = st.trace.countP isAnalysisCall + (if fileAnalyzed fetch f then 1 else 0) := by
  by_cases hsupp : should_analyze_file f.filename = true
  · cases hfe : fetch f.filename with
    | none =>
        simp [analyzeFileStep, hsupp, hfe, fileAnalyzed, flaggedFile,
          isDetailComment, isSummaryComment, isContentCall, isAnalysisCall,
          List.countP_append]
    | some c =>
        by_cases hc : c = ""
        · simp [analyzeFileStep, hsupp, hfe, hc, fileAnalyzed, flaggedFile,
            isDetailComment, isSummaryComment, isContentCall, isAnalysisCall,
            List.countP_append]
        · by_cases hflag : (analyze c f.filename).security_issues.length > 0 ∨
              (analyze c f.filename).quality_score < 70
          · simp [analyzeFileStep, hsupp, hfe, hc, hflag, fileAnalyzed, flaggedFile,
              isDetailComment, isSummaryComment, isContentCall, isAnalysisCall,
              List.countP_append]
          · simp [analyzeFileStep, hsupp, hfe, hc, hflag, fileAnalyzed, flaggedFile,
              isDetailComment, isSummaryComment, isContentCall, isAnalysisCall,
              List.countP_append]
  · simp [analyzeFileStep, hsupp, fileAnalyzed, flaggedFile]

/-- Accounting for the whole per-file fold, relative to an arbitrary
starting state. -/
lemma loop_foldl_counts (fetch : String → Option String)
    (analyze : String → String → FileAnalysis) (files : List FileInfo) :
    ∀ st : LoopState,
      (files.foldl (analyzeFileStep fetch analyze) st).results.length
          = st.results.length + files.countP (fileAnalyzed fetch) ∧
      (files.foldl (analyzeFileStep fetch analyze) st).trace.countP isDetailComment
          = st.trace.countP isDetailComment
            + files.countP (flaggedFile fetch analyze) ∧
      (files.foldl (analyzeFileStep fetch analyze) st).trace.countP isSummaryComment
          = st.trace.countP isSummaryComment ∧
      (files.foldl (analyzeFileStep fetch analyze) st).trace.countP isContentCall
          = st.trace.countP isContentCall
            + files.countP (fun g => should_analyze_file g.filename) ∧
      (files.foldl (analyzeFileStep fetch analyze) st).trace.countP isAnalysisCall
          = st.trace.countP isAnalysisCall + files.countP (fileAnalyzed fetch) := by
  induction files with
  | nil => intro st; simp
  | cons f fs ih =>
      intro st
      obtain ⟨a1, a2, a3, a4, a5⟩ := analyzeFileStep_counts fetch analyze st f
      obtain ⟨b1, b2, b3, b4, b5⟩ := ih (analyzeFileStep fetch analyze st f)
      simp only [List.foldl_cons, List.countP_cons]
      refine ⟨?_, ?_, ?_, ?_, ?_⟩
      · rw [b1, a1]; omega
      · rw [b2, a2]; omega
      · rw [b3, a3]
      · rw [b4, a4]; omega
      · rw [b5, a5]; omega

/-- Accounting for the complete background task
(`_analyze_pull_request_files`): detailed comments count the flagged files,
a summary comment appears exactly when at least one file was analyzed,
content fetches count the supported files, analysis runs count the analyzed
files, and the file count inside any summary comment is the number of
analyzed files. -/
lemma analyze_loop_spec (fetch : String → Option String)
    (analyze : String → String → FileAnalysis) (files : List FileInfo) :
    (analyze_pull_request_files fetch analyze files).countP isDetailComment
        = files.countP (flaggedFile fetch analyze) ∧
    (analyze_pull_request_files fetch analyze files).countP isSummaryComment
        = (if files.countP (fileAnalyzed fetch) = 0 then 0 else 1) ∧
    (analyze_pull_request_files fetch analyze files).countP isContentCall
        = files.countP (fun g => should_analyze_file g.filename) ∧
    (analyze_pull_request_files fetch analyze files).countP isAnalysisCall
        = files.countP (fileAnalyzed fetch) ∧
    (∀ n t, NetCall.postComment (Comment.summary n t)
          ∈ analyze_pull_request_files fetch analyze files →
        n = files.countP (fileAnalyzed fetch)) := by
  obtain ⟨h1, h2, h3, h4, h5⟩ := loop_foldl_counts fetch analyze files
    { trace := [NetCall.postComment Comment.started], results := [], total_issues := 0 }
  simp only [List.length_nil, Nat.zero_add] at h1
  have e2 : List.countP isDetailComment [NetCall.postComment Comment.started] = 0 := rfl
  have e3 : List.countP isSummaryComment [NetCall.postComment Comment.started] = 0 := rfl
  have e4 : List.countP isContentCall [NetCall.postComment Comment.started] = 0 := rfl
  have e5 : List.countP isAnalysisCall [NetCall.postComment Comment.started] = 0 := rfl
  rw [e2, Nat.zero_add] at h2
  rw [e3] at h3
  rw [e4, Nat.zero_add] at h4
  rw [e5, Nat.zero_add] at h5
  simp only [analyze_pull_request_files]
  by_cases hres : (files.foldl (analyzeFileStep fetch analyze)
      { trace := [NetCall.postComment Comment.started], results := [],
        total_issues := 0 }).results = []
  · rw [if_pos hres]
    have hz : files.countP (fileAnalyzed fetch) = 0 := by
      rw [← h1, hres]; rfl
    refine ⟨h2, ?_, h4, h5, ?_⟩
    · rw [h3, hz, if_pos rfl]
    · intro n t hmem
      have := List.countP_eq_zero.mp h3 _ hmem
      exact absurd rfl this
  · rw [if_neg hres]
    have hnz : files.countP (fileAnalyzed fetch) ≠ 0 := by
      intro hz
      apply hres
      rw [← List.length_eq_zero, h1, hz]
    refine ⟨?_, ?_, ?_, ?_, ?_⟩
    · rw [List.countP_append, h2]
      have : List.countP isDetailComment
          [NetCall.postComment (Comment.summary
            (files.foldl (analyzeFileStep fetch analyze)
              { trace := [NetCall.postComment Comment.started], results := [],
                total_issues := 0 }).results.length
            (files.foldl (analyzeFileStep fetch analyze)
              { trace := [NetCall.postComment Comment.started], results := [],
                total_issues := 0 }).total_issues)] = 0 := rfl
      rw [this]
      omega
    · rw [List.countP_append, h3, if_neg hnz]
      rfl
    · rw [List.countP_append, h4]
      have : List.countP isContentCall
          [NetCall.postComment (Comment.summary
            (files.foldl (analyzeFileStep fetch analyze)
              { trace := [NetCall.postComment Comment.started], results := [],
                total_issues := 0 }).results.length
            (files.foldl (analyzeFileStep fetch analyze)
              { trace := [NetCall.postComment Comment.started], results := [],
                total_issues := 0 }).total_issues)] = 0 := rfl
      rw [this]
      omega
    · rw [List.countP_append, h5]
      have : List.countP isAnalysisCall
          [NetCall.postComment (Comment.summary
            (files.foldl (analyzeFileStep fetch analyze)
              { trace := [NetCall.postComment Comment.started], results := [],
                total_issues := 0 }).results.length
            (files.foldl (analyzeFileStep fetch analyze)
              { trace := [NetCall.postComment Comment.started], results := [],
                total_issues := 0 }).total_issues)] = 0 := rfl
      rw [this]
      omega
    · intro n t hmem
      rw [List.mem_append] at hmem
      cases hmem with
      | inl hin =>
          have := List.countP_eq_zero.mp h3 _ hin
          exact absurd rfl this
      | inr hone =>
          rw [List.mem_singleton] at hone
          have hn : n = (files.foldl (analyzeFileStep fetch analyze)
              { trace := [NetCall.postComment Comment.started], results := [],
                total_issues := 0 }).results.length := by
            have := (NetCall.postComment.inj hone)
            exact (Comment.summary.inj this).1
          rw [hn, h1]

/-- When every supported file's fetch yields non-empty content, the analyzed
files are exactly the supported files. -/
lemma countP_analyzed_eq_supported (fetch : String → Option String)
    (files : List FileInfo)
    (hfetch : ∀ f ∈ files, should_analyze_file f.filename = true →
        ∃ c, fetch f.filename = some c ∧ c ≠ "") :
    files.countP (fileAnalyzed fetch)
      = files.countP (fun g => should_analyze_file g.filename) := by
  apply List.countP_congr
  intro f hf
  constructor
  · intro hpa
    simp only [fileAnalyzed, Bool.and_eq_true] at hpa
    exact hpa.1
  · intro hsupp
    obtain ⟨c, hc, hcne⟩ := hfetch f hf hsupp
    simp [fileAnalyzed, hsupp, hc, hcne]

/-! ## Claim theorems -/

/-- Claim C3: with an empty configured secret, validate_webhook_signature
returns true for every payload and every signature header value (and every
HMAC function). -/
theorem validate_signature_no_secret (hmacHex : List Char → List Nat → List Char)
    (payload : List Nat) (signature : List Char) :
    validate_webhook_signature hmacHex payload signature [] = true := by
  simp [validate_webhook_signature]

/-- Claim C4: fetch_pull_request_files returns the empty list on every
non-2xx response and on a transport exception; get_file_content returns none
on every non-2xx response, on every encoding other than base64, and on a
transport exception.  Both are total functions of the observed outcome, so
neither can propagate the underlying error. -/
theorem client_negative_results (decodeB64 : String → Option String)
    (status : Nat) (filesBody : List FileInfo) (contentsBody : ContentsBody)
    (hst : status < 200 ∨ 300 ≤ status) :
    fetch_pull_request_files (HttpResult.ok status filesBody) = [] ∧
    fetch_pull_request_files HttpResult.exn = [] ∧
    get_file_content decodeB64 (HttpResult.ok status contentsBody) = none ∧
    get_file_content decodeB64 HttpResult.exn = none ∧
    (∀ (st : Nat) (body : ContentsBody), body.encoding ≠ "base64" →
        get_file_content decodeB64 (HttpResult.ok st body) = none) := by
  have hne : status ≠ 200 := by omega
  refine ⟨?_, rfl, ?_, rfl, ?_⟩
  · simp [fetch_pull_request_files, hne]
  · simp [get_file_content, hne]
  · intro st body henc
    by_cases h200 : st = 200 <;> simp [get_file_content, h200, henc]

/-- Closed witness for claim C4 at status 404 and a non-base64 body. -/
theorem client_negative_results_witness :
    fetch_pull_request_files (HttpResult.ok 404 [⟨"a.py"⟩]) = [] ∧
    get_file_content (fun _ => some "x") (HttpResult.ok 404 ⟨"base64", "eA=="⟩) = none ∧
    get_file_content (fun _ => some "x") (HttpResult.ok 200 ⟨"utf-8", "x"⟩) = none :=
  have h := client_negative_results (fun _ => some "x") 404 [⟨"a.py"⟩]
    ⟨"base64", "eA=="⟩ (by decide)
  ⟨h.1, h.2.2.1, h.2.2.2.2 200 ⟨"utf-8", "x"⟩ (by decide)⟩

/-- Claim C5: the overall letter grade computed by the code equals the
spec's description: bucket the quality score minus 20 per HIGH-severity
finding minus 15 / 5 for HIGH / MEDIUM complexity at the fixed thresholds
90 / 80 / 70 / 60. -/
theorem overall_rating_matches_spec (issues : List SecurityIssue)
    (q : ℚ) (c : String) :
    calculate_overall_rating issues q c
      = letterGradeSpec (adjustedScoreSpec issues q c) := by
  have e : (if c = "HIGH" then
              q - ((issues.filter (fun i => i.severity = "HIGH")).length : ℚ) * 20 - 15
            else if c = "MEDIUM" then
              q - ((issues.filter (fun i => i.severity = "HIGH")).length : ℚ) * 20 - 5
            else
              q - ((issues.filter (fun i => i.severity = "HIGH")).length : ℚ) * 20)
      = adjustedScoreSpec issues q c := by
    simp only [adjustedScoreSpec]
    split_ifs <;> ring
  simp only [calculate_overall_rating]
  rw [e]
  simp only [letterGradeSpec]

lemma sha256Header_length : sha256Header.length = 7 := rfl

/-- With a non-empty secret, validation is exactly the comparison of the
expected digest with the (conditionally stripped) signature. -/
lemma validate_eq_decide (hmacHex : List Char → List Nat → List Char)
    (payload : List Nat) (sig secret : List Char) (hs : secret ≠ []) :
    validate_webhook_signature hmacHex payload sig secret =
      decide (hmacHex secret payload =
        if sig.take 7 = sha256Header then sig.drop 7 else sig) := by
  rw [validate_webhook_signature, if_neg hs]

/-- Stripping the prefix from a correctly prefixed value recovers the
digest. -/
lemma strip_of_prefixed_digest (E : List Char) :
    (if (sha256Header ++ E).take 7 = sha256Header then (sha256Header ++ E).drop 7
     else sha256Header ++ E) = E := by
  rw [if_pos (List.take_left' sha256Header_length), List.drop_left' sha256Header_length]

/-- A single-character mutation of a correctly prefixed signature never
strips-and-compares back to the digest: a mutation inside the prefix leaves
a 71-character string that cannot equal the 64-character digest, and a
mutation after the prefix changes the stripped remainder. -/
lemma stripped_mutation_ne {E sig' : List Char} {i : Nat}
    (h : mutatedAt i (sha256Header ++ E) sig') :
    (if sig'.take 7 = sha256Header then sig'.drop 7 else sig') ≠ E := by
  obtain ⟨hlen, hi, hne, hagree⟩ := h
  have hlenv : (sha256Header ++ E).length = 7 + E.length := by
    rw [List.length_append, sha256Header_length]
  by_cases h7 : i < 7
  · have htake : ¬ (sig'.take 7 = sha256Header) := by
      intro heq
      apply hne
      have h1 : sig'[i]? = (sig'.take 7)[i]? := (List.getElem?_take_of_lt h7).symm
      rw [heq] at h1
      have h2 : (sha256Header ++ E)[i]? = sha256Header[i]? :=
        List.getElem?_append_left (by rw [sha256Header_length]; exact h7)
      rw [h2, h1]
    rw [if_neg htake]
    intro heq
    have hlen2 : sig'.length = E.length := by rw [heq]
    omega
  · push_neg at h7
    have htake : sig'.take 7 = sha256Header := by
      have hx : sig'.take 7 = (sha256Header ++ E).take 7 := by
        apply List.ext_getElem?
        intro n
        by_cases hn : n < 7
        · rw [List.getElem?_take_of_lt hn, List.getElem?_take_of_lt hn]
          exact (hagree n (by omega) (by omega)).symm
        · rw [List.getElem?_eq_none, List.getElem?_eq_none]
          · have := List.length_take 7 (sha256Header ++ E); omega
          · have := List.length_take 7 sig'; omega
      rw [hx, List.take_left' sha256Header_length]
    rw [if_pos htake]
    intro heq
    apply hne
    have h1 : sig'[i]? = (sig'.drop 7)[i - 7]? := by
      rw [List.getElem?_drop]
      congr 1
      omega
    rw [heq] at h1
    have h2 : (sha256Header ++ E)[i]? = E[i - 7]? := by
      rw [List.getElem?_append_right (by rw [sha256Header_length]; omega),
        sha256Header_length]
    rw [h2, h1]

/-- Claim C2: with a non-empty secret, validation accepts the correctly
prefixed HMAC digest, and rejects every signature obtained from it by a
single-character mutation; it also rejects the original signature after a
single-byte mutation of the payload or of the secret, given that the HMAC
value at the mutated input differs (the defining property of a collision-free
keyed hash at these points). -/
theorem validate_signature_exact (hmacHex : List Char → List Nat → List Char)
    (payload : List Nat) (secret : List Char) (hs : secret ≠ []) :
    validate_webhook_signature hmacHex payload
        (sha256Header ++ hmacHex secret payload) secret = true ∧
    (∀ (payload' : List Nat) (i : Nat), mutatedAt i payload payload' →
        hmacHex secret payload' ≠ hmacHex secret payload →
        validate_webhook_signature hmacHex payload'
          (sha256Header ++ hmacHex secret payload) secret = false) ∧
    (∀ (sig' : List Char) (i : Nat),
        mutatedAt i (sha256Header ++ hmacHex secret payload) sig' →
        validate_webhook_signature hmacHex payload sig' secret = false) ∧
    (∀ (secret' : List Char) (i : Nat), mutatedAt i secret secret' →
        hmacHex secret' payload ≠ hmacHex secret payload →
        validate_webhook_signature hmacHex payload
          (sha256Header ++ hmacHex secret payload) secret' = false) := by
  refine ⟨?_, ?_, ?_, ?_⟩
  · rw [validate_eq_decide hmacHex payload _ secret hs, strip_of_prefixed_digest]
    exact decide_eq_true rfl
  · intro payload' i _hmut hne
    rw [validate_eq_decide hmacHex payload' _ secret hs, strip_of_prefixed_digest]
    exact decide_eq_false hne
  · intro sig' i hmut
    rw [validate_eq_decide hmacHex payload sig' secret hs]
    exact decide_eq_false (fun he => stripped_mutation_ne hmut he.symm)
  · intro secret' i hmut hne
    have hs' : secret' ≠ [] := by
      obtain ⟨hlen, hi, -, -⟩ := hmut
      intro he
      rw [he, List.length_nil] at hlen
      omega
    rw [validate_eq_decide hmacHex payload _ secret' hs', strip_of_prefixed_digest]
    exact decide_eq_false hne

/-- A toy stand-in for the HMAC hex digest, used only to witness the
signature theorems at concrete inputs: one character determined by the byte
sums of secret and payload. -/
def toyHmac : List Char → List Nat → List Char := fun s p =>
  [Char.ofNat (48 + (s.foldl (fun a c => a + c.toNat) 0 +
    p.foldl (fun a b => a + b) 0) % 10)]

/-- Closed witness for claim C2: a concrete key, payload and mutations of
each of the three components. -/
theorem validate_signature_exact_witness :
    validate_webhook_signature toyHmac [1, 2]
        (sha256Header ++ toyHmac ['k'] [1, 2]) ['k'] = true ∧
    validate_webhook_signature toyHmac [1, 3]
        (sha256Header ++ toyHmac ['k'] [1, 2]) ['k'] = false ∧
    validate_webhook_signature toyHmac [1, 2]
        (sha256Header ++ ['1']) ['k'] = false ∧
    validate_webhook_signature toyHmac [1, 2]
        (sha256Header ++ toyHmac ['k'] [1, 2]) ['l'] = false :=
  have h := validate_signature_exact toyHmac [1, 2] ['k'] (by decide)
  ⟨h.1,
   h.2.1 [1, 3] 1 (by decide) (by decide),
   h.2.2.1 (sha256Header ++ ['1']) 7 (by decide),
   h.2.2.2 ['l'] 0 (by decide) (by decide)⟩

/-- Claim C10: with a non-empty secret, a correct digest is accepted in the
bare (unprefixed) form as well as in the prefixed form: the header is
stripped only when present.  (The bare form needs the digest itself not to
start with the literal prefix, which holds for hex output.) -/
theorem validate_signature_bare_digest (hmacHex : List Char → List Nat → List Char)
    (payload : List Nat) (secret : List Char) (hs : secret ≠ [])
    (hnp : ¬ ((hmacHex secret payload).take 7 = sha256Header)) :
    validate_webhook_signature hmacHex payload (hmacHex secret payload) secret = true ∧
    validate_webhook_signature hmacHex payload
        (sha256Header ++ hmacHex secret payload) secret = true := by
  constructor
  · rw [validate_eq_decide hmacHex payload _ secret hs, if_neg hnp]
    exact decide_eq_true rfl
  · rw [validate_eq_decide hmacHex payload _ secret hs, strip_of_prefixed_digest]
    exact decide_eq_true rfl

/-- Closed witness for claim C10 at a concrete key and payload. -/
theorem validate_signature_bare_digest_witness :
    validate_webhook_signature toyHmac [1, 2] (toyHmac ['k'] [1, 2]) ['k'] = true ∧
    validate_webhook_signature toyHmac [1, 2]
        (sha256Header ++ toyHmac ['k'] [1, 2]) ['k'] = true :=
  validate_signature_bare_digest toyHmac [1, 2] ['k'] (by decide) (by decide)

/-- Characterization of the per-pattern finding constructor: it yields a
finding exactly for a POSITIVE classification with score above 0.7, and the
finding's fields are determined by the score. -/
lemma classifyFinding_eq_some {res : Option (String × ℚ)} {p : String}
    {i : SecurityIssue} :
    classifyFinding res p = some i ↔
      ∃ s : ℚ, res = some ("POSITIVE", s) ∧ 7/10 < s ∧
        i = { issueType := p,
              severity := if 9/10 < s then "HIGH" else "MEDIUM",
              confidence := s,
              description := "Potential " ++ p ++ " detected" } := by
  constructor
  · intro h
    match res with
    | none => simp [classifyFinding] at h
    | some (l, s) =>
        by_cases hc : l = "POSITIVE" ∧ s > 7/10
        · refine ⟨s, by rw [hc.1], hc.2, ?_⟩
          simp only [classifyFinding, if_pos hc] at h
          exact (Option.some.inj h).symm
        · simp only [classifyFinding, if_neg hc] at h
          exact Option.noConfusion h
  · rintro ⟨s, hres, hs, hi⟩
    subst hres hi
    simp [classifyFinding, hs]

/-- Claim C6: the security scan emits a finding for a vulnerability pattern
exactly when the classifier answered POSITIVE with score above 0.7; severity
is HIGH for score above 0.9 and MEDIUM otherwise, hence in the allowed set,
and (for provider scores in [0, 1]) the recorded confidence is in [0, 1]. -/
theorem security_scan_findings (classify : String → Option (String × ℚ))
    (hbound : ∀ p l s, classify p = some (l, s) → 0 ≤ s ∧ s ≤ 1) :
    (∀ p ∈ security_patterns,
        ((∃ i ∈ analyze_security classify, i.issueType = p) ↔
          (∃ s : ℚ, classify p = some ("POSITIVE", s) ∧ 7/10 < s))) ∧
    (∀ i ∈ analyze_security classify,
        (i.severity = "HIGH" ∨ i.severity = "MEDIUM" ∨ i.severity = "LOW") ∧
        (0 ≤ i.confidence ∧ i.confidence ≤ 1) ∧
        (9/10 < i.confidence ↔ i.severity = "HIGH") ∧
        (i.confidence ≤ 9/10 → i.severity = "MEDIUM")) := by
  constructor
  · intro p hp
    constructor
    · rintro ⟨i, hi, hip⟩
      rw [analyze_security, List.mem_filterMap] at hi
      obtain ⟨a, _ha, hfa⟩ := hi
      rw [classifyFinding_eq_some] at hfa
      obtain ⟨s, hres, hs, hieq⟩ := hfa
      have hap : a = p := by rw [hieq] at hip; exact hip
      exact ⟨s, hap ▸ hres, hs⟩
    · rintro ⟨s, hres, hs⟩
      refine ⟨{ issueType := p, severity := if 9/10 < s then "HIGH" else "MEDIUM",
                confidence := s, description := "Potential " ++ p ++ " detected" },
              ?_, rfl⟩
      rw [analyze_security, List.mem_filterMap]
      exact ⟨p, hp, classifyFinding_eq_some.mpr ⟨s, hres, hs, rfl⟩⟩
  · intro i hi
    rw [analyze_security, List.mem_filterMap] at hi
    obtain ⟨p, _hp, hfa⟩ := hi
    rw [classifyFinding_eq_some] at hfa
    obtain ⟨s, hres, hs, hieq⟩ := hfa
    have hb := hbound p "POSITIVE" s hres
    have hconf : i.confidence = s := by rw [hieq]
    have hsev : i.severity = if 9/10 < s then "HIGH" else "MEDIUM" := by rw [hieq]
    refine ⟨?_, ?_, ?_, ?_⟩
    · rw [hsev]
      by_cases h9 : 9/10 < s
      · rw [if_pos h9]; left; rfl
      · rw [if_neg h9]; right; left; rfl
    · rw [hconf]; exact ⟨hb.1, hb.2⟩
    · rw [hconf, hsev]
      by_cases h9 : 9/10 < s
      · rw [if_pos h9]; exact ⟨fun _ => rfl, fun _ => h9⟩
      · rw [if_neg h9]
        constructor
        · intro h; exact absurd h h9
        · intro h; exact absurd h (by decide)
    · rw [hconf, hsev]
      intro h9
      rw [if_neg (not_lt.mpr h9)]

/-- Closed witness for claim C6: a classifier answering POSITIVE with
score 1 for every pattern. -/
theorem security_scan_findings_witness :
    (∀ p ∈ security_patterns,
        ((∃ i ∈ analyze_security (fun _ => some ("POSITIVE", (1:ℚ))), i.issueType = p) ↔
          (∃ s : ℚ, (fun _ => some (("POSITIVE":String), (1:ℚ))) p = some ("POSITIVE", s) ∧
            7/10 < s))) ∧
    (∀ i ∈ analyze_security (fun _ => some ("POSITIVE", (1:ℚ))),
        (i.severity = "HIGH" ∨ i.severity = "MEDIUM" ∨ i.severity = "LOW") ∧
        (0 ≤ i.confidence ∧ i.confidence ≤ 1) ∧
        (9/10 < i.confidence ↔ i.severity = "HIGH") ∧
        (i.confidence ≤ 9/10 → i.severity = "MEDIUM")) :=
  security_scan_findings (fun _ => some ("POSITIVE", (1:ℚ)))
    (fun _ l s h => by
      have h' : (("POSITIVE":String), (1:ℚ)) = (l, s) := Option.some.inj h
      have hs : (1:ℚ) = s := congrArg Prod.snd h'
      exact hs ▸ ⟨zero_le_one, le_rfl⟩)

/-- Claim C7: for every code content and every provider base score in
[0, 1], the quality score lies in [0, 100], and the failure fallback is 50
(also in range). -/
theorem quality_score_in_range (s : ℚ) (content : String)
    (h0 : 0 ≤ s) (h1 : s ≤ 1) :
    (0 ≤ analyze_quality (some s) content ∧ analyze_quality (some s) content ≤ 100) ∧
    (analyze_quality none content = 50 ∧ (0:ℚ) ≤ 50 ∧ (50:ℚ) ≤ 100) := by
  refine ⟨?_, rfl, by norm_num, by norm_num⟩
  simp only [analyze_quality]
  have hb0 : (0:ℚ) ≤ s * 100 := by positivity
  have hb1 : s * 100 ≤ 100 := by nlinarith
  constructor
  · split_ifs <;> linarith
  · split_ifs <;> linarith

/-- Closed witness for claim C7 at score 1 and a one-line content. -/
theorem quality_score_in_range_witness :
    (0 ≤ analyze_quality (some 1) "pass" ∧ analyze_quality (some 1) "pass" ≤ 100) ∧
    (analyze_quality none "pass" = 50 ∧ (0:ℚ) ≤ 50 ∧ (50:ℚ) ≤ 100) :=
  quality_score_in_range 1 "pass" zero_le_one le_rfl

/-- Counterexample to claim C1 as stated: a PR whose single changed file
README.md is skipped for its unsupported extension.  The claim demands
exactly one summary comment (with file count 1 - 1 = 0); the code posts no
summary comment at all, because analysis_results stays empty. -/
theorem analysis_loop_summary_counterexample :
    (analyze_pull_request_files (fun _ => some "code") (fun _ _ => ⟨[], 90⟩)
        [⟨"README.md"⟩]).countP isSummaryComment ≠ 1 := by decide

/-- Claim C1 (amended): in the background loop, provided every supported
file's content fetch succeeds with non-empty content: exactly K detailed
comments are posted, where K counts the analyzed files with at least one
finding or quality score below 70; exactly one summary comment is posted if
at least one file is analyzed, and none otherwise; and the file count stated
in any summary comment equals N minus the files skipped for an unsupported
extension. -/
theorem analysis_loop_comments (fetch : String → Option String)
    (analyze : String → String → FileAnalysis) (files : List FileInfo)
    (hfetch : ∀ f ∈ files, should_analyze_file f.filename = true →
        ∃ c, fetch f.filename = some c ∧ c ≠ "") :
    (analyze_pull_request_files fetch analyze files).countP isDetailComment
        = files.countP (flaggedFile fetch analyze) ∧
    (0 < files.countP (fun g => should_analyze_file g.filename) →
        (analyze_pull_request_files fetch analyze files).countP isSummaryComment = 1) ∧
    (files.countP (fun g => should_analyze_file g.filename) = 0 →
        (analyze_pull_request_files fetch analyze files).countP isSummaryComment = 0) ∧
    (∀ n t, NetCall.postComment (Comment.summary n t)
          ∈ analyze_pull_request_files fetch analyze files →
        n = files.length
            - files.countP (fun g => ¬ should_analyze_file g.filename)) := by
  obtain ⟨h1, h2, h3, h4, h5⟩ := analyze_loop_spec fetch analyze files
  have heq := countP_analyzed_eq_supported fetch files hfetch
  have hsplit := List.length_eq_countP_add_countP
    (fun g => should_analyze_file g.filename) (l := files)
  refine ⟨h1, ?_, ?_, ?_⟩
  · intro hpos
    rw [h2, heq, if_neg (by omega)]
  · intro hz
    rw [h2, heq, if_pos hz]
  · intro n t hmem
    have := h5 n t hmem
    rw [heq] at this
    omega

/-- Closed witness for claim C1 (amended) at a PR with one supported and one
skipped file, all fetches succeeding. -/
theorem analysis_loop_comments_witness :
    (analyze_pull_request_files (fun _ => some "code") (fun _ _ => ⟨[], 60⟩)
        [⟨"a.py"⟩, ⟨"b.md"⟩]).countP isDetailComment
        = List.countP (flaggedFile (fun _ => some "code") (fun _ _ => ⟨[], 60⟩))
            [⟨"a.py"⟩, ⟨"b.md"⟩] ∧
    (0 < List.countP (fun g => should_analyze_file g.filename)
          [(⟨"a.py"⟩ : FileInfo), ⟨"b.md"⟩] →
        (analyze_pull_request_files (fun _ => some "code") (fun _ _ => ⟨[], 60⟩)
            [⟨"a.py"⟩, ⟨"b.md"⟩]).countP isSummaryComment = 1) ∧
    (List.countP (fun g => should_analyze_file g.filename)
          [(⟨"a.py"⟩ : FileInfo), ⟨"b.md"⟩] = 0 →
        (analyze_pull_request_files (fun _ => some "code") (fun _ _ => ⟨[], 60⟩)
            [⟨"a.py"⟩, ⟨"b.md"⟩]).countP isSummaryComment = 0) ∧
    (∀ n t, NetCall.postComment (Comment.summary n t)
          ∈ analyze_pull_request_files (fun _ => some "code") (fun _ _ => ⟨[], 60⟩)
              [⟨"a.py"⟩, ⟨"b.md"⟩] →
        n = [(⟨"a.py"⟩ : FileInfo), ⟨"b.md"⟩].length
            - List.countP (fun g => ¬ should_analyze_file g.filename)
                [(⟨"a.py"⟩ : FileInfo), ⟨"b.md"⟩]) :=
  analysis_loop_comments (fun _ => some "code") (fun _ _ => ⟨[], 60⟩)
    [⟨"a.py"⟩, ⟨"b.md"⟩]
    (fun _ _ _ => ⟨"code", rfl, by decide⟩)

/-- Claim C8: on a qualifying PR event whose changed-file list is empty, the
dispatcher posts exactly one "no analyzable files" comment, returns success,
and makes no call after observing the empty list: the complete trace is the
PR-info fetch, the file-list fetch, and that single comment. -/
theorem pr_event_empty_files (fetchInfo : Option Unit) (files : List FileInfo)
    (fetch : String → Option String) (analyze : String → String → FileAnalysis)
    (n : Nat) (action : String)
    (hn : n ≠ 0) (ha : action ∈ supported_pr_actions)
    (hi : fetchInfo = some ()) (hf : files = []) :
    process_pull_request_event fetchInfo files fetch analyze (some n) action =
      (true, [NetCall.getPRInfo, NetCall.fetchFiles,
              NetCall.postComment Comment.noFiles]) := by
  subst hi hf
  simp [process_pull_request_event, hn, ha]

/-- Closed witness for claim C8 at PR number 1 with action "opened". -/
theorem pr_event_empty_files_witness :
    process_pull_request_event (some ()) [] (fun _ => none)
        (fun _ _ => ⟨[], 50⟩) (some 1) "opened" =
      (true, [NetCall.getPRInfo, NetCall.fetchFiles,
              NetCall.postComment Comment.noFiles]) :=
  pr_event_empty_files (some ()) [] (fun _ => none) (fun _ _ => ⟨[], 50⟩) 1 "opened"
    (by decide) (by decide) rfl rfl

/-- Claim C9: the configured max-files-per-PR cap is not enforced by the
background loop: when the changed-file list contains more supported files
than the cap, the loop still fetches and (given successful fetches) analyzes
every one of them, with no truncation. -/
theorem max_files_cap_not_enforced (fetch : String → Option String)
    (analyze : String → String → FileAnalysis) (files : List FileInfo)
    (hcap : max_files_per_pr
        < files.countP (fun g => should_analyze_file g.filename))
    (hfetch : ∀ f ∈ files, should_analyze_file f.filename = true →
        ∃ c, fetch f.filename = some c ∧ c ≠ "") :
    (analyze_pull_request_files fetch analyze files).countP isContentCall
        = files.countP (fun g => should_analyze_file g.filename) ∧
    (analyze_pull_request_files fetch analyze files).countP isAnalysisCall
        = files.countP (fun g => should_analyze_file g.filename) ∧
    max_files_per_pr
        < (analyze_pull_request_files fetch analyze files).countP isAnalysisCall := by
  obtain ⟨h1, h2, h3, h4, h5⟩ := analyze_loop_spec fetch analyze files
  have heq := countP_analyzed_eq_supported fetch files hfetch
  rw [heq] at h4
  refine ⟨h3, h4, ?_⟩
  rw [h4]
  exact hcap

/-- Closed witness for claim C9: 51 supported files against the default cap
of 50, all fetches succeeding. -/
theorem max_files_cap_not_enforced_witness :
    (analyze_pull_request_files (fun _ => some "code") (fun _ _ => ⟨[], 90⟩)
        (List.replicate 51 ⟨"a.py"⟩)).countP isContentCall
        = (List.replicate 51 (⟨"a.py"⟩ : FileInfo)).countP
            (fun g => should_analyze_file g.filename) ∧
    (analyze_pull_request_files (fun _ => some "code") (fun _ _ => ⟨[], 90⟩)
        (List.replicate 51 ⟨"a.py"⟩)).countP isAnalysisCall
        = (List.replicate 51 (⟨"a.py"⟩ : FileInfo)).countP
            (fun g => should_analyze_file g.filename) ∧
    max_files_per_pr
        < (analyze_pull_request_files (fun _ => some "code") (fun _ _ => ⟨[], 90⟩)
            (List.replicate 51 ⟨"a.py"⟩)).countP isAnalysisCall :=
  max_files_cap_not_enforced (fun _ => some "code") (fun _ _ => ⟨[], 90⟩)
    (List.replicate 51 ⟨"a.py"⟩)
    (by decide)
    (fun _ _ _ => ⟨"code", rfl, by decide⟩)

end AICodeReview
